import Mathlib

/-!
Verification of the forum's validation, session, vote-toggle and auth-gate
logic.  Go strings are modelled as `List Char` (one entry per rune, matching
`for _, r := range s` and `utf8.RuneCountInString`); the SQLite store is
modelled as explicit lists of rows; fallible operations return `Except` or
pair the new state with an optional error, mirroring the Go signatures.
-/

namespace Forum

/-- Character-classification tables of Go's `unicode` package
(`IsUpper`, `IsLower`, `IsDigit`, `IsLetter`, `IsSpace`, and
`unicode.In r Mn Mc Me` for combining marks).  The repository calls these
but does not define them, so the development is parameterized over them;
`uniRef` below is a concrete instantiation used for concrete instances. -/
structure Uni where
  isUpper : Char → Bool
  isLower : Char → Bool
  isDigit : Char → Bool
  isLetter : Char → Bool
  isSpace : Char → Bool
  isCombining : Char → Bool

/-- Reference instantiation of the Unicode tables.  It agrees with Go's
`unicode` package on every code point used in the concrete theorems below:
the ASCII range, the Latin-1 white-space set, the fully-assigned combining
block U+0300–U+036F (category Mn), and the zero-width range U+200B–U+200D
(category Cf, not a combining mark). -/
def uniRef : Uni where
  isUpper c := 'A' ≤ c && c ≤ 'Z'
  isLower c := 'a' ≤ c && c ≤ 'z'
  isDigit c := '0' ≤ c && c ≤ '9'
  isLetter c := ('A' ≤ c && c ≤ 'Z') || ('a' ≤ c && c ≤ 'z')
  isSpace c := c == ' ' || c == '\t' || c == '\n' || c == '\u000B' ||
    c == '\u000C' || c == '\r' || c == '\u0085' || c == '\u00A0'
  isCombining c := 0x300 ≤ c.toNat && c.toNat ≤ 0x36F

/-- The `controlCharRanges` table of `validation.go`. -/
def controlCharRanges : List (Nat × Nat) :=
  [(0x0000, 0x0008), (0x0B, 0x0C), (0x0E, 0x1F), (0x007F, 0x009F)]

/-- The `dangerousUnicodeRanges` table of `validation.go`. -/
def dangerousUnicodeRanges : List (Nat × Nat) :=
  [(0x0300, 0x036F), (0x1AB0, 0x1AFF), (0x1DC0, 0x1DFF), (0x20D0, 0x20FF),
   (0xFE20, 0xFE2F), (0x200B, 0x200D), (0x2060, 0x2064), (0xFEFF, 0xFEFF)]

def inRanges (rs : List (Nat × Nat)) (c : Char) : Bool :=
  rs.any fun r => r.1 ≤ c.toNat && c.toNat ≤ r.2

/-- `isControlChar` of `validation.go`. -/
def isControlChar (c : Char) : Bool := inRanges controlCharRanges c

/-- `isDangerousUnicode` of `validation.go`. -/
def isDangerousUnicode (c : Char) : Bool := inRanges dangerousUnicodeRanges c

/-- The rune loop of `CleanText`: `cnt` is the running `combiningCount`.
Control characters are skipped without touching the counter; a combining
mark increments it and is written only while the count stays ≤ 2; any other
character resets the counter and is written unless it lies in a dangerous
range. -/
def cleanTextAux (u : Uni) (cnt : Nat) : List Char → List Char
  | [] => []
  | c :: rest =>
    if isControlChar c then cleanTextAux u cnt rest
    else if u.isCombining c then
      if cnt + 1 ≤ 2 then c :: cleanTextAux u (cnt + 1) rest
      else cleanTextAux u (cnt + 1) rest
    else if isDangerousUnicode c then cleanTextAux u 0 rest
    else c :: cleanTextAux u 0 rest

/-- `CleanText` of `validation.go`. -/
def CleanText (u : Uni) (s : List Char) : List Char := cleanTextAux u 0 s

/-- The combining-run scan of `ValidateTextSafety`: returns `false` as soon
as the local counter exceeds 5. -/
def safetyCombiningOK (u : Uni) (cnt : Nat) : List Char → Bool
  | [] => true
  | c :: rest =>
    if u.isCombining c then
      if cnt + 1 > 5 then false else safetyCombiningOK u (cnt + 1) rest
    else safetyCombiningOK u 0 rest

def excessiveMsg : String :=
  "Text contains excessive special characters that may break display"

/-- `ValidateTextSafety` of `validation.go`. -/
def ValidateTextSafety (u : Uni) (s : List Char) : Bool × String :=
  if ¬ safetyCombiningOK u 0 s then (false, excessiveMsg)
  else if 10 < s.count 'í' ∨ 10 < s.count 'ì' then
    (false, "Text contains suspicious character patterns")
  else if '\u200B' ∈ s ∨ '\u200C' ∈ s ∨ '\u200D' ∈ s then
    (false, "Text contains invisible characters")
  else (true, "")

/-- The username character class of the regex in `ValidateUsername`. -/
def usernameCharOK (c : Char) : Bool :=
  ('a' ≤ c && c ≤ 'z') || ('A' ≤ c && c ≤ 'Z') ||
  ('0' ≤ c && c ≤ '9') || c == '_' || c == '-'

/-- `ValidateUsername` of `validation.go`. -/
def ValidateUsername (u : Uni) (s : List Char) : Bool × String :=
  let cleaned := CleanText u s
  if ' ' ∈ cleaned then (false, "Username cannot contain spaces")
  else if (ValidateTextSafety u cleaned).1 = false then
    (false, (ValidateTextSafety u cleaned).2)
  else if cleaned.length < 3 then (false, "Username must be at least 3 characters")
  else if cleaned.length > 50 then
    (false, "Username must be no more than 50 characters")
  else if ¬ (cleaned ≠ [] ∧ cleaned.all usernameCharOK) then
    (false, "Username can only contain letters, numbers, underscores, and hyphens")
  else (true, "")

/-- `ValidatePassword` of `validation.go`; the checks run on the raw
string, in source order. -/
def ValidatePassword (u : Uni) (p : List Char) : Bool × String :=
  if p.length < 8 then (false, "Password must be at least 8 characters")
  else if p.length > 128 then (false, "Password must be no more than 128 characters")
  else if ' ' ∈ p then (false, "Password cannot contain spaces")
  else if ¬ p.any u.isUpper then
    (false, "Password must contain at least one uppercase letter")
  else if ¬ p.any u.isLower then
    (false, "Password must contain at least one lowercase letter")
  else if ¬ p.any u.isDigit then
    (false, "Password must contain at least one number")
  else if ¬ p.any (fun c => !(u.isLetter c) && !(u.isDigit c) && !(u.isSpace c)) then
    (false, "Password must contain at least one special character (!@#$%^&*)")
  else (true, "")

/-- Fixpoint of the `for strings.Contains(cleaned, "  ")` loop of
`ValidatePostTitle`: every run of spaces collapses to a single space. -/
def collapseSpaces : List Char → List Char
  | [] => []
  | ' ' :: ' ' :: rest => collapseSpaces (' ' :: rest)
  | c :: rest => c :: collapseSpaces rest

/-- `strings.TrimSpace` of the Go standard library: drop leading and
trailing `unicode.IsSpace` characters. -/
def trimSpace (u : Uni) (s : List Char) : List Char :=
  ((s.dropWhile u.isSpace).reverse.dropWhile u.isSpace).reverse

/-- The cleaning and normalization prefix of `ValidatePostTitle`:
`CleanText`, then `\n`, `\r`, `\t` each replaced by a space, then space
runs collapsed. -/
def normalizeTitle (u : Uni) (t : List Char) : List Char :=
  collapseSpaces ((CleanText u t).map fun c =>
    if c == '\n' || c == '\r' || c == '\t' then ' ' else c)

/-- `ValidatePostTitle` of `validation.go`. -/
def ValidatePostTitle (u : Uni) (t : List Char) : Bool × String :=
  let cleaned := normalizeTitle u t
  if cleaned ≠ trimSpace u cleaned then
    (false, "Title cannot have spaces at the beginning or end")
  else if (ValidateTextSafety u cleaned).1 = false then
    (false, (ValidateTextSafety u cleaned).2)
  else if cleaned.length = 0 then (false, "Title is required")
  else if cleaned.length < 3 then (false, "Title must be at least 3 characters")
  else if cleaned.length > 255 then
    (false, "Title must be no more than 255 characters")
  else (true, "")

/-- `strings.ReplaceAll(s, "\r\n", "\n")`: leftmost non-overlapping
replacement of the two-character sequence. -/
def replaceCRLF : List Char → List Char
  | [] => []
  | '\r' :: '\n' :: rest => '\n' :: replaceCRLF rest
  | c :: rest => c :: replaceCRLF rest

/-- The cleaning and normalization prefix shared by `ValidatePostContent`
and `ValidateCommentContent`: `CleanText`, CRLF → LF, lone CR → LF, tab →
four spaces. -/
def normalizeContent (u : Uni) (s : List Char) : List Char :=
  ((replaceCRLF (CleanText u s)).map fun c => if c == '\r' then '\n' else c).flatMap
    fun c => if c == '\t' then [' ', ' ', ' ', ' '] else [c]

/-- `ValidatePostContent` of `validation.go`. -/
def ValidatePostContent (u : Uni) (s : List Char) : Bool × String :=
  let cleaned := normalizeContent u s
  if cleaned ≠ trimSpace u cleaned then
    (false, "Content cannot have spaces at the beginning or end")
  else if (ValidateTextSafety u cleaned).1 = false then
    (false, (ValidateTextSafety u cleaned).2)
  else if cleaned.length = 0 then (false, "Content is required")
  else if cleaned.length < 10 then (false, "Content must be at least 10 characters")
  else if cleaned.length > 10000 then
    (false, "Content must be no more than 10,000 characters")
  else (true, "")

/-- `ValidateCommentContent` of `validation.go`. -/
def ValidateCommentContent (u : Uni) (s : List Char) : Bool × String :=
  let cleaned := normalizeContent u s
  if cleaned ≠ trimSpace u cleaned then
    (false, "Comment cannot have spaces at the beginning or end")
  else if (ValidateTextSafety u cleaned).1 = false then
    (false, (ValidateTextSafety u cleaned).2)
  else if cleaned.length = 0 then (false, "Comment content is required")
  else if cleaned.length < 10 then (false, "Comment must be at least 10 characters")
  else if cleaned.length > 5000 then
    (false, "Comment must be no more than 5,000 characters")
  else (true, "")

/-- Length of the longest run of consecutive combining marks in a string,
computed with a running counter and a running best. -/
def maxRunAux (u : Uni) (cur best : Nat) : List Char → Nat
  | [] => max cur best
  | c :: rest =>
    if u.isCombining c then maxRunAux u (cur + 1) (max (cur + 1) best) rest
    else maxRunAux u 0 best rest

def maxConsecCombining (u : Uni) (s : List Char) : Nat := maxRunAux u 0 0 s

/-- One row of the `post_likes` / `comment_likes` tables (`target` is the
`post_id` / `comment_id` column; the schema declares `is_like BOOLEAN NOT
NULL` and `UNIQUE(user_id, target)`). -/
structure VoteRow where
  user : Nat
  target : Nat
  isLike : Bool
deriving DecidableEq

/-- The slice of the SQLite store touched by `LikesService`: the ids of
existing posts and comments and the two vote tables. -/
structure ForumDB where
  posts : List Nat
  comments : List Nat
  postLikes : List VoteRow
  commentLikes : List VoteRow
deriving DecidableEq

/-- `LikesService.postExists`: `SELECT 1 FROM posts WHERE id = ? LIMIT 1`. -/
def postExists (db : ForumDB) (postID : Nat) : Bool := db.posts.contains postID

/-- `LikesService.commentExists`. -/
def commentExists (db : ForumDB) (commentID : Nat) : Bool :=
  db.comments.contains commentID

def voteKey (u t : Nat) (r : VoteRow) : Bool := r.user == u && r.target == t

/-- `SELECT is_like FROM <table> WHERE user_id = ? AND target = ?`:
`none` plays the role of `sql.ErrNoRows`. -/
def lookupVote (rows : List VoteRow) (u t : Nat) : Option Bool :=
  (rows.find? (voteKey u t)).map VoteRow.isLike

/-- `DELETE FROM <table> WHERE user_id = ? AND target = ?`. -/
def deleteVote (rows : List VoteRow) (u t : Nat) : List VoteRow :=
  rows.filter fun r => !(voteKey u t r)

/-- `UPDATE <table> SET is_like = b WHERE user_id = ? AND target = ?`. -/
def updateVote (rows : List VoteRow) (u t : Nat) (b : Bool) : List VoteRow :=
  rows.map fun r => if voteKey u t r then ⟨r.user, r.target, b⟩ else r

/-- The shared toggle body of the four vote operations, on one vote table:
no row → insert with `is_like = want`; row with `is_like = want` → delete
(toggle off); otherwise → update to `want`. -/
def toggleVote (rows : List VoteRow) (u t : Nat) (want : Bool) : List VoteRow :=
  match lookupVote rows u t with
  | none => rows ++ [⟨u, t, want⟩]
  | some b => if b = want then deleteVote rows u t else updateVote rows u t want

/-- `LikesService.LikePost`: existence check first, then the toggle.  The
result pairs the new store with the returned `error` (Go mutates the store
in place and returns only the error). -/
def LikePost (db : ForumDB) (userID postID : Nat) : ForumDB × Option String :=
  if postExists db postID = false then (db, some "post not found")
  else ({db with postLikes := toggleVote db.postLikes userID postID true}, none)

/-- `LikesService.DislikePost`. -/
def DislikePost (db : ForumDB) (userID postID : Nat) : ForumDB × Option String :=
  if postExists db postID = false then (db, some "post not found")
  else ({db with postLikes := toggleVote db.postLikes userID postID false}, none)

/-- `LikesService.LikeComment`. -/
def LikeComment (db : ForumDB) (userID commentID : Nat) : ForumDB × Option String :=
  if commentExists db commentID = false then (db, some "comment not found")
  else ({db with commentLikes := toggleVote db.commentLikes userID commentID true},
    none)

/-- `LikesService.DislikeComment`. -/
def DislikeComment (db : ForumDB) (userID commentID : Nat) :
    ForumDB × Option String :=
  if commentExists db commentID = false then (db, some "comment not found")
  else ({db with commentLikes := toggleVote db.commentLikes userID commentID false},
    none)

/-- The stored vote of user `u` on post `t` (`nil` / `true` / `false`). -/
def postVote (db : ForumDB) (u t : Nat) : Option Bool := lookupVote db.postLikes u t

/-- Errors surfaced by `database/sql` when scanning the like/dislike
aggregate row. -/
inductive SqlError where
  | errNoRows
  | scanNullToInt
deriving DecidableEq

/-- The aggregate row of `GetPostLikeCounts`: the query always returns
exactly one row, and per SQL semantics `SUM` over zero rows is NULL. -/
def sqlSumRow (rows : List VoteRow) : Option Nat × Option Nat :=
  if rows.isEmpty then (none, none)
  else (some (rows.countP (·.isLike)), some (rows.countP fun r => !r.isLike))

/-- `Row.Scan(&likes, &dislikes)` into two Go `int`s: scanning NULL into an
int fails with a conversion error (which is not `sql.ErrNoRows`). -/
def scanTwoInts : Option Nat × Option Nat → Except SqlError (Nat × Nat)
  | (some a, some b) => .ok (a, b)
  | _ => .error .scanNullToInt

/-- `LikesService.GetPostLikeCounts`: run the aggregate query, scan, and
map only `sql.ErrNoRows` to `(0, 0)`. -/
def GetPostLikeCounts (db : ForumDB) (postID : Nat) : Except SqlError (Nat × Nat) :=
  let rows := db.postLikes.filter fun r => r.target == postID
  match scanTwoInts (sqlSumRow rows) with
  | .ok v => .ok v
  | .error e => if e = .errNoRows then .ok (0, 0) else .error e

/-- One row of the `sessions` table (`token TEXT UNIQUE NOT NULL`). -/
structure Session where
  token : String
  userId : Nat
  expiresAt : Nat
deriving DecidableEq

/-- One row of the `users` table as read by the session join
(`avatar_url` is nullable). -/
structure StoredUser where
  id : Nat
  uuid : String
  username : String
  email : String
  avatarUrl : Option String
  isAdmin : Bool
  createdAt : Nat
deriving DecidableEq

/-- `models.User` as returned by `GetUserByToken` (NULL avatar already
converted to `""`). -/
structure User where
  id : Nat
  uuid : String
  username : String
  email : String
  avatarUrl : String
  isAdmin : Bool
  createdAt : Nat
deriving DecidableEq

/-- The slice of the store touched by `SessionService`. -/
structure SessionDB where
  users : List StoredUser
  sessions : List Session
deriving DecidableEq

/-- `SessionService.CreateSession`: delete every session row of `userID`,
then insert a fresh row whose token is the freshly generated random string
(passed in as `token`, externalizing `crypto/rand`) and whose expiry is 24
hours from `now`; the token is returned. -/
def CreateSession (db : SessionDB) (userID : Nat) (token : String) (now : Nat) :
    SessionDB × String :=
  ({db with sessions :=
      (db.sessions.filter fun s => !(s.userId == userID)) ++
        [⟨token, userID, now + 24 * 3600⟩]},
    token)

/-- N sequential `CreateSession` calls for one user; each list entry is the
(random token, wall-clock time) of one call. -/
def createSessions (db : SessionDB) (userID : Nat) :
    List (String × Nat) → SessionDB
  | [] => db
  | c :: rest => createSessions (CreateSession db userID c.1 c.2).1 userID rest

def invalidSessionMsg : String := "invalid or expired session"

/-- `SessionService.GetUserByToken`: the users-sessions join filtered by
`token = ? AND expires_at > CURRENT_TIMESTAMP`; zero rows is
`sql.ErrNoRows`, surfaced as the invalid-session error. -/
def GetUserByToken (db : SessionDB) (token : String) (now : Nat) :
    Except String User :=
  match db.sessions.find? fun s => s.token == token && now < s.expiresAt with
  | none => .error invalidSessionMsg
  | some s =>
    match db.users.find? fun u => u.id == s.userId with
    | none => .error invalidSessionMsg
    | some u =>
      .ok ⟨u.id, u.uuid, u.username, u.email, u.avatarUrl.getD "", u.isAdmin,
        u.createdAt⟩

/-- Outcome of an auth-gated request: either the downstream handler runs
with the resolved identity, or the middleware responds itself. -/
inductive AuthOutcome where
  | invoke (user : User)
  | redirect (location : String)
deriving DecidableEq

/-- `AuthMiddleware.RequireAuth`: `cookie` is the value of the
`session_token` cookie when present (`r.Cookie` errors when absent). -/
def RequireAuth (db : SessionDB) (now : Nat) (cookie : Option String) :
    AuthOutcome :=
  match cookie with
  | none => .redirect "/login"
  | some tok =>
    match GetUserByToken db tok now with
    | .error _ => .redirect "/login"
    | .ok u => .invoke u

deriving instance DecidableEq for Except

theorem lookupVote_append_self (l : List VoteRow) (u t : Nat) (b : Bool)
    (h : lookupVote l u t = none) :
    lookupVote (l ++ [⟨u, t, b⟩]) u t = some b := by
  induction l with
  | nil => simp [lookupVote, voteKey]
  | cons x xs ih =>
    simp only [lookupVote, List.cons_append, List.find?_cons] at h ⊢
    cases hx : voteKey u t x with
    | true => simp [hx] at h
    | false =>
      simp only [hx] at h ⊢
      exact ih h

theorem lookupVote_delete (l : List VoteRow) (u t : Nat) :
    lookupVote (deleteVote l u t) u t = none := by
  have h : (List.filter (fun r => !voteKey u t r) l).find? (voteKey u t) = none := by
    rw [List.find?_eq_none]
    intro x hx
    rcases List.mem_filter.mp hx with ⟨_, hxf⟩
    simp only [Bool.not_eq_true'] at hxf
    simp [hxf]
  simp [lookupVote, deleteVote, h]

theorem lookupVote_update (l : List VoteRow) (u t : Nat) (b : Bool)
    (h : lookupVote l u t ≠ none) :
    lookupVote (updateVote l u t b) u t = some b := by
  induction l with
  | nil => simp [lookupVote] at h
  | cons x xs ih =>
    cases hx : voteKey u t x with
    | true =>
      have hx2 : voteKey u t (⟨x.user, x.target, b⟩ : VoteRow) = true := by
        simpa [voteKey] using hx
      simp [lookupVote, updateVote, List.find?_cons, hx, hx2]
    | false =>
      have h2 : lookupVote xs u t ≠ none := by
        simpa [lookupVote, List.find?_cons, hx] using h
      simpa [lookupVote, updateVote, List.find?_cons, hx] using ih h2

theorem likePost_preserves_posts (db : ForumDB) (u p : Nat) :
    ((LikePost db u p).1).posts = db.posts := by
  unfold LikePost; split <;> rfl

theorem dislikePost_preserves_posts (db : ForumDB) (u p : Nat) :
    ((DislikePost db u p).1).posts = db.posts := by
  unfold DislikePost; split <;> rfl

theorem toggleVote_lookup (l : List VoteRow) (u t : Nat) (w : Bool) :
    lookupVote (toggleVote l u t w) u t =
      (if lookupVote l u t = some w then none else some w) := by
  unfold toggleVote
  cases hv : lookupVote l u t with
  | none => simp [lookupVote_append_self l u t w hv]
  | some b =>
    by_cases hb : b = w
    · subst hb; simp [lookupVote_delete]
    · simp [hb, lookupVote_update l u t w (by simp [hv])]

theorem postVote_likePost (db : ForumDB) (u p : Nat)
    (hp : postExists db p = true) :
    (LikePost db u p).2 = none ∧
    postVote (LikePost db u p).1 u p =
      (if postVote db u p = some true then none else some true) := by
  unfold LikePost postVote
  simp [hp, toggleVote_lookup]

theorem postVote_dislikePost (db : ForumDB) (u p : Nat)
    (hp : postExists db p = true) :
    (DislikePost db u p).2 = none ∧
    postVote (DislikePost db u p).1 u p =
      (if postVote db u p = some false then none else some false) := by
  unfold DislikePost postVote
  simp [hp, toggleVote_lookup]

/-- C1: for every user and existing post the vote operations implement the
three-way toggle table — no stored vote: Like inserts `is_like = true`,
Dislike inserts `is_like = false`; stored like: Like deletes the row,
Dislike updates it to `false`; stored dislike: Dislike deletes the row,
Like updates it to `true` — and hence Like–Like from no vote returns to no
vote, and Like–Dislike leaves the stored state dislike. -/
theorem likeDislikePost_toggle_table (db : ForumDB) (u p : Nat)
    (hp : postExists db p = true) :
    (postVote db u p = none →
      postVote (LikePost db u p).1 u p = some true ∧ (LikePost db u p).2 = none) ∧
    (postVote db u p = none →
      postVote (DislikePost db u p).1 u p = some false ∧
        (DislikePost db u p).2 = none) ∧
    (postVote db u p = some true →
      postVote (LikePost db u p).1 u p = none ∧ (LikePost db u p).2 = none) ∧
    (postVote db u p = some true →
      postVote (DislikePost db u p).1 u p = some false ∧
        (DislikePost db u p).2 = none) ∧
    (postVote db u p = some false →
      postVote (DislikePost db u p).1 u p = none ∧ (DislikePost db u p).2 = none) ∧
    (postVote db u p = some false →
      postVote (LikePost db u p).1 u p = some true ∧ (LikePost db u p).2 = none) ∧
    (postVote db u p = none →
      postVote (LikePost (LikePost db u p).1 u p).1 u p = none) ∧
    (postVote db u p = none →
      postVote (DislikePost (LikePost db u p).1 u p).1 u p = some false) := by
  have hp1 : postExists (LikePost db u p).1 p = true := by
    rw [postExists, likePost_preserves_posts]; exact hp
  obtain ⟨hle, hlv⟩ := postVote_likePost db u p hp
  obtain ⟨hde, hdv⟩ := postVote_dislikePost db u p hp
  obtain ⟨_, hlv2⟩ := postVote_likePost (LikePost db u p).1 u p hp1
  obtain ⟨_, hdv2⟩ := postVote_dislikePost (LikePost db u p).1 u p hp1
  refine ⟨?_, ?_, ?_, ?_, ?_, ?_, ?_, ?_⟩ <;> intro hv <;>
    simp [hv] at hlv hdv <;> simp_all

theorem likeDislikePost_toggle_table_witness :
    postVote (LikePost ⟨[1], [], [], []⟩ 5 1).1 5 1 = some true := by
  have h := likeDislikePost_toggle_table ⟨[1], [], [], []⟩ 5 1 (by decide)
  exact (h.1 (by decide)).1

/-- C3: liking or disliking a nonexistent post (respectively comment)
returns the target-not-found error and leaves the store untouched; the
existence check runs before the vote row is read or written. -/
theorem voteOps_target_not_found (db : ForumDB) (u t : Nat) :
    (postExists db t = false →
      LikePost db u t = (db, some "post not found") ∧
      DislikePost db u t = (db, some "post not found")) ∧
    (commentExists db t = false →
      LikeComment db u t = (db, some "comment not found") ∧
      DislikeComment db u t = (db, some "comment not found")) := by
  constructor <;> intro h <;>
    simp [LikePost, DislikePost, LikeComment, DislikeComment, h]

theorem voteOps_target_not_found_witness :
    LikePost ⟨[1], [], [], []⟩ 5 2 = (⟨[1], [], [], []⟩, some "post not found") :=
  ((voteOps_target_not_found ⟨[1], [], [], []⟩ 5 2).1 (by decide)).1

/-- C10: for a post that exists but has no vote rows, `GetPostLikeCounts`
returns an error rather than `(0, 0)`: the aggregate `SUM` over zero rows
is SQL NULL, scanning NULL into the `int` out-parameters fails, and only
the `sql.ErrNoRows` case is mapped to `(0, 0)`. -/
theorem getPostLikeCounts_null_sum_error (db : ForumDB) (p : Nat)
    (_hex : postExists db p = true)
    (hnone : db.postLikes.filter (fun r => r.target == p) = []) :
    GetPostLikeCounts db p = .error .scanNullToInt := by
  simp [GetPostLikeCounts, hnone, sqlSumRow, scanTwoInts]

theorem getPostLikeCounts_null_sum_error_witness :
    GetPostLikeCounts ⟨[1], [], [], []⟩ 1 = .error .scanNullToInt :=
  getPostLikeCounts_null_sum_error ⟨[1], [], [], []⟩ 1 (by decide) (by decide)

theorem createSessions_append_last (U : Nat) (calls : List (String × Nat))
    (c : String × Nat) :
    ∀ db : SessionDB,
      (createSessions db U (calls ++ [c])).sessions =
        (db.sessions.filter fun s => !(s.userId == U)) ++
          [⟨c.1, U, c.2 + 24 * 3600⟩] := by
  induction calls with
  | nil =>
    intro db
    simp [createSessions, CreateSession]
  | cons e es ih =>
    intro db
    have step :
        createSessions db U ((e :: es) ++ [c]) =
          createSessions (CreateSession db U e.1 e.2).1 U (es ++ [c]) := rfl
    rw [step, ih]
    simp [CreateSession, List.filter_append, List.filter_filter]

theorem getUserByToken_error_of_fresh (db : SessionDB) (tok : String) (now : Nat)
    (h : ∀ s ∈ db.sessions, s.token ≠ tok) :
    GetUserByToken db tok now = .error invalidSessionMsg := by
  unfold GetUserByToken
  have hf : db.sessions.find?
      (fun s => s.token == tok && decide (now < s.expiresAt)) = none := by
    rw [List.find?_eq_none]
    intro s hs
    simp [h s hs]
  rw [hf]

/-- C2: after any nonempty sequence of sequential `CreateSession` calls for
user `U` — each call receiving a freshly generated token that collides
neither with the other calls' tokens nor with any token already stored —
exactly one session row for `U` remains, holding the token of the most
recent call, and every earlier call's token fails `GetUserByToken` with the
invalid-session error at any point in time. -/
theorem createSession_single_session (db : SessionDB) (U : Nat)
    (earlier : List (String × Nat)) (last : String × Nat)
    (hnodup : ((earlier ++ [last]).map Prod.fst).Nodup)
    (hfresh : ∀ c ∈ earlier ++ [last], ∀ s ∈ db.sessions, s.token ≠ c.1) :
    (((createSessions db U (earlier ++ [last])).sessions.filter
        fun s => s.userId == U).map Session.token = [last.1]) ∧
    (∀ c ∈ earlier, ∀ now,
      GetUserByToken (createSessions db U (earlier ++ [last])) c.1 now =
        .error invalidSessionMsg) := by
  have hs := createSessions_append_last U earlier last db
  constructor
  · rw [hs]
    simp [List.filter_append, List.filter_filter]
  · intro c hc now
    apply getUserByToken_error_of_fresh
    intro s hsmem
    rw [hs] at hsmem
    rcases List.mem_append.mp hsmem with h1 | h1
    · exact hfresh c (List.mem_append_left _ hc) s (List.mem_of_mem_filter h1)
    · have heq : s = ⟨last.1, U, last.2 + 24 * 3600⟩ := by simpa using h1
      subst heq
      intro habs
      have hmem1 : c.1 ∈ earlier.map Prod.fst := List.mem_map_of_mem _ hc
      have hnd := hnodup
      rw [List.map_append] at hnd
      rcases List.nodup_append.mp hnd with ⟨_, _, hdisj⟩
      exact hdisj hmem1 (by simpa using habs.symm)

theorem createSession_single_session_witness :
    (((createSessions ⟨[], []⟩ 1 [("a", 0), ("b", 5)]).sessions.filter
        fun s => s.userId == 1).map Session.token = ["b"]) ∧
    GetUserByToken (createSessions ⟨[], []⟩ 1 [("a", 0), ("b", 5)]) "a" 7 =
      .error invalidSessionMsg := by
  have h := createSession_single_session ⟨[], []⟩ 1 [("a", 0)] ("b", 5)
    (by decide) (by intro c _ s hs; simp at hs)
  exact ⟨h.1, h.2 ("a", 0) (by decide) 7⟩

/-- C9: the `RequireAuth` gate invokes the downstream handler exactly when
the request carries a `session_token` cookie resolving through
`GetUserByToken` to a valid, non-expired session's user; in every other
case it responds with a redirect to `/login` and the handler never runs. -/
theorem requireAuth_gate (db : SessionDB) (now : Nat) (cookie : Option String) :
    (∀ usr, RequireAuth db now cookie = .invoke usr ↔
      ∃ tok, cookie = some tok ∧ GetUserByToken db tok now = .ok usr) ∧
    ((∀ tok, cookie = some tok → ∀ usr, GetUserByToken db tok now ≠ .ok usr) →
      RequireAuth db now cookie = .redirect "/login") := by
  constructor
  · intro usr
    constructor
    · intro h
      cases cookie with
      | none => simp [RequireAuth] at h
      | some tok =>
        cases hg : GetUserByToken db tok now with
        | error e => simp [RequireAuth, hg] at h
        | ok v =>
          simp only [RequireAuth, hg] at h
          cases h
          exact ⟨tok, rfl, hg⟩
    · rintro ⟨tok, rfl, hg⟩
      simp [RequireAuth, hg]
  · intro h
    cases cookie with
    | none => rfl
    | some tok =>
      cases hg : GetUserByToken db tok now with
      | error e => simp [RequireAuth, hg]
      | ok v => exact absurd hg (h tok rfl v)

theorem requireAuth_gate_witness :
    RequireAuth ⟨[⟨1, "u", "n", "e", none, false, 0⟩], [⟨"t", 1, 10⟩]⟩ 0
        (some "t") = .invoke ⟨1, "u", "n", "e", "", false, 0⟩ ∧
    RequireAuth ⟨[⟨1, "u", "n", "e", none, false, 0⟩], [⟨"t", 1, 10⟩]⟩ 0 none =
      .redirect "/login" := by
  constructor
  · exact ((requireAuth_gate _ 0 (some "t")).1 _).mpr ⟨"t", rfl, by decide⟩
  · exact (requireAuth_gate _ 0 none).2 (fun tok h => by cases h)

/-- C4: `ValidatePassword` accepts exactly the strings with no space,
8–128 code points, and at least one uppercase letter, one lowercase
letter, one digit, and one character that is neither letter, digit, nor
white space. -/
theorem validatePassword_iff (u : Uni) (p : List Char) :
    (ValidatePassword u p).1 = true ↔
      (' ' ∉ p ∧ 8 ≤ p.length ∧ p.length ≤ 128 ∧
       p.any u.isUpper = true ∧ p.any u.isLower = true ∧
       p.any u.isDigit = true ∧
       p.any (fun c => !(u.isLetter c) && !(u.isDigit c) && !(u.isSpace c)) =
         true) := by
  unfold ValidatePassword
  split_ifs with h1 h2 h3 h4 h5 h6 h7 <;> simp_all

theorem validatePassword_iff_witness :
    (ValidatePassword uniRef
      ['P', 'a', 's', 's', 'w', 'o', 'r', 'd', '1', '2', '3', '!']).1 = true :=
  (validatePassword_iff uniRef _).mpr (by decide)

theorem le_maxRunAux (u : Uni) (s : List Char) :
    ∀ cur best, best ≤ maxRunAux u cur best s := by
  induction s with
  | nil => intro cur best; simp only [maxRunAux]; omega
  | cons c cs ih =>
    intro cur best
    by_cases hc : u.isCombining c = true
    · have h2 := ih (cur + 1) (max (cur + 1) best)
      simp only [maxRunAux, hc, if_true]
      omega
    · have h2 := ih 0 best
      have hc2 : u.isCombining c = false := by simpa using hc
      simp only [maxRunAux, hc2, Bool.false_eq_true, if_false]
      omega

theorem maxRunAux_cleanTextAux (u : Uni) (s : List Char)
    (h : ∀ c ∈ s, isDangerousUnicode c = true → u.isCombining c = true) :
    ∀ cnt cur best, cur ≤ cnt → cur ≤ 2 →
      maxRunAux u cur best (cleanTextAux u cnt s) ≤ max best 2 := by
  induction s with
  | nil =>
    intro cnt cur best h1 h2
    simp only [cleanTextAux, maxRunAux]
    omega
  | cons c cs ih =>
    intro cnt cur best h1 h2
    have hc := h c (by simp)
    have hcs : ∀ x ∈ cs, isDangerousUnicode x = true → u.isCombining x = true :=
      fun x hx => h x (by simp [hx])
    by_cases hctrl : isControlChar c = true
    · simp only [cleanTextAux, hctrl, if_true]
      exact ih hcs cnt cur best h1 h2
    · by_cases hcomb : u.isCombining c = true
      · by_cases hcnt : cnt + 1 ≤ 2
        · have hrec := ih hcs (cnt + 1) (cur + 1) (max (cur + 1) best)
            (by omega) (by omega)
          simp only [cleanTextAux, hctrl, hcomb, hcnt, if_true, if_false,
            maxRunAux]
          simp only [maxRunAux] at hrec ⊢
          omega
        · have hrec := ih hcs (cnt + 1) cur best (by omega) h2
          simp only [cleanTextAux, hctrl, hcomb, hcnt, if_true, if_false]
          simpa using hrec
      · by_cases hdang : isDangerousUnicode c = true
        · exact absurd (hc hdang) (by simpa using hcomb)
        · have hrec := ih hcs 0 0 best (le_refl 0) (by omega)
          simp only [cleanTextAux, hctrl, hcomb, hdang, maxRunAux]
          simp only [Bool.false_eq_true, if_false]
          omega

/-- C5 (amended): for inputs containing no dangerous-range character that
is not itself a combining mark, `CleanText` leaves at most 2 consecutive
combining marks.  (In general a dropped dangerous character — e.g. a
zero-width space — resets the cap counter and vanishes from the output,
gluing two capped runs together, so longer runs can remain; see the
counterexample.) -/
theorem cleanText_combining_cap (u : Uni) (s : List Char)
    (h : ∀ c ∈ s, isDangerousUnicode c = true → u.isCombining c = true) :
    maxConsecCombining u (CleanText u s) ≤ 2 := by
  have h2 := maxRunAux_cleanTextAux u s h 0 0 0 (le_refl 0) (by omega)
  have h3 : max 0 2 = 2 := rfl
  simp only [maxConsecCombining, CleanText]
  omega

theorem cleanText_combining_cap_witness :
    maxConsecCombining uniRef (CleanText uniRef ['a', '́']) ≤ 2 :=
  cleanText_combining_cap uniRef _ (by decide)

/-- C5 counterexample: two capped combining runs separated by a zero-width
space (dropped, and it resets the counter) concatenate in the output,
leaving 3 consecutive combining marks — the claimed bound of 2 fails. -/
theorem cleanText_combining_cap_counterexample :
    2 < maxConsecCombining uniRef
        (CleanText uniRef ['́', '́', '​', '́']) := by decide

theorem safetyCombiningOK_iff_maxRun (u : Uni) (s : List Char) :
    ∀ cnt best, cnt ≤ 5 → best ≤ 5 →
      (safetyCombiningOK u cnt s = true ↔ maxRunAux u cnt best s ≤ 5) := by
  induction s with
  | nil =>
    intro cnt best h1 h2
    simp [safetyCombiningOK, maxRunAux]
    omega
  | cons c cs ih =>
    intro cnt best h1 h2
    by_cases hc : u.isCombining c = true
    · by_cases hcnt : cnt + 1 > 5
      · have h6 := le_maxRunAux u cs (cnt + 1) (max (cnt + 1) best)
        simp only [safetyCombiningOK, maxRunAux, hc, if_true, hcnt]
        simp only [Bool.false_eq_true, false_iff, not_le]
        omega
      · have := ih (cnt + 1) (max (cnt + 1) best) (by omega) (by omega)
        simpa [safetyCombiningOK, maxRunAux, hc, hcnt] using this
    · have := ih 0 best (by omega) h2
      simpa [safetyCombiningOK, maxRunAux, hc] using this

theorem safetyCombiningOK_false_iff (u : Uni) (s : List Char) :
    safetyCombiningOK u 0 s = false ↔ 5 < maxConsecCombining u s := by
  have h := safetyCombiningOK_iff_maxRun u s 0 0 (by omega) (by omega)
  cases hb : safetyCombiningOK u 0 s <;>
    simp [hb, maxConsecCombining] at h ⊢ <;> omega

theorem validateTextSafety_zalgo (u : Uni) (s : List Char)
    (h : 5 < maxConsecCombining u s) :
    ValidateTextSafety u s = (false, excessiveMsg) := by
  have h2 := (safetyCombiningOK_false_iff u s).mpr h
  simp [ValidateTextSafety, h2]

/-- C6 (amended): the four validators reject with the
excessive-special-characters reason whenever more than 5 consecutive
combining marks survive in the *cleaned* (post-cap) string and the checks
ordered before the safety screen pass; a raw input whose long run is
capped to 2 by `CleanText` before the screen runs is not rejected for this
reason (see the counterexample). -/
theorem validators_reject_cleaned_zalgo (u : Uni) (s : List Char) :
    (' ' ∉ CleanText u s → 5 < maxConsecCombining u (CleanText u s) →
      ValidateUsername u s = (false, excessiveMsg)) ∧
    (normalizeTitle u s = trimSpace u (normalizeTitle u s) →
      5 < maxConsecCombining u (normalizeTitle u s) →
      ValidatePostTitle u s = (false, excessiveMsg)) ∧
    (normalizeContent u s = trimSpace u (normalizeContent u s) →
      5 < maxConsecCombining u (normalizeContent u s) →
      ValidatePostContent u s = (false, excessiveMsg)) ∧
    (normalizeContent u s = trimSpace u (normalizeContent u s) →
      5 < maxConsecCombining u (normalizeContent u s) →
      ValidateCommentContent u s = (false, excessiveMsg)) := by
  refine ⟨?_, ?_, ?_, ?_⟩
  · intro h1 h2
    have hz := validateTextSafety_zalgo u (CleanText u s) h2
    simp only [ValidateUsername]
    rw [if_neg h1, hz]
    simp
  · intro h1 h2
    have hz := validateTextSafety_zalgo u (normalizeTitle u s) h2
    simp only [ValidatePostTitle]
    rw [if_neg (not_not_intro h1), hz]
    simp
  · intro h1 h2
    have hz := validateTextSafety_zalgo u (normalizeContent u s) h2
    simp only [ValidatePostContent]
    rw [if_neg (not_not_intro h1), hz]
    simp
  · intro h1 h2
    have hz := validateTextSafety_zalgo u (normalizeContent u s) h2
    simp only [ValidateCommentContent]
    rw [if_neg (not_not_intro h1), hz]
    simp

theorem validators_reject_cleaned_zalgo_witness :
    ValidatePostTitle uniRef
      ['a', 'b', 'c', '́', '́', '​', '́', '́',
       '​', '́', '́'] = (false, excessiveMsg) :=
  (validators_reject_cleaned_zalgo uniRef _).2.1 (by decide) (by decide)

/-- C6 counterexample: a title carrying 6 consecutive combining marks in
the raw input is *accepted* — `CleanText` caps the run to 2 before
`ValidateTextSafety` ever sees it, so no validator rejects it, let alone
with the excessive-special-characters reason. -/
theorem validators_zalgo_counterexample :
    ValidatePostTitle uniRef
      ('a' :: 'b' :: 'c' :: List.replicate 6 '́') = (true, "") := by decide

/-- C7 (amended): `ValidatePostTitle` reports the required-field reason
exactly when the cleaned and normalized title is *empty*; a nonempty
normalized title that trims to the empty string (e.g. a single space) is
rejected with the boundary-space reason instead (see the counterexample). -/
theorem validatePostTitle_empty_required (u : Uni) (t : List Char) :
    (normalizeTitle u t = [] →
      ValidatePostTitle u t = (false, "Title is required")) ∧
    (normalizeTitle u t ≠ [] → trimSpace u (normalizeTitle u t) = [] →
      ValidatePostTitle u t =
        (false, "Title cannot have spaces at the beginning or end")) := by
  constructor
  · intro h
    simp [ValidatePostTitle, h, trimSpace, ValidateTextSafety, safetyCombiningOK]
  · intro h1 h2
    have hne : normalizeTitle u t ≠ trimSpace u (normalizeTitle u t) := by
      rw [h2]; exact h1
    simp only [ValidatePostTitle]
    rw [if_pos hne]

theorem validatePostTitle_empty_required_witness :
    ValidatePostTitle uniRef [] = (false, "Title is required") :=
  (validatePostTitle_empty_required uniRef []).1 (by decide)

/-- C7 counterexample: the input consisting of one space normalizes to a
nonempty string that trims to empty, and it is rejected with the
boundary-space reason, not the required-field reason the claim demands. -/
theorem title_required_counterexample :
    trimSpace uniRef (normalizeTitle uniRef [' ']) = [] ∧
    ValidatePostTitle uniRef [' '] =
      (false, "Title cannot have spaces at the beginning or end") := by decide

theorem space_mem_cleanTextAux (u : Uni) (hsp : u.isCombining ' ' = false)
    (s : List Char) : ∀ cnt, ' ' ∈ s → ' ' ∈ cleanTextAux u cnt s := by
  induction s with
  | nil => intro cnt h; simp at h
  | cons c cs ih =>
    intro cnt hmem
    have hctrl : isControlChar ' ' = false := by decide
    have hdang : isDangerousUnicode ' ' = false := by decide
    rcases List.mem_cons.mp hmem with h1 | h1
    · cases h1
      simp [cleanTextAux, hctrl, hsp, hdang]
    · by_cases h2 : isControlChar c = true
      · simpa [cleanTextAux, h2] using ih cnt h1
      · by_cases h3 : u.isCombining c = true
        · by_cases h4 : cnt + 1 ≤ 2
          · simp only [cleanTextAux, h2, h3, h4, if_true, if_false]
            exact List.mem_cons_of_mem _ (ih (cnt + 1) h1)
          · simpa [cleanTextAux, h2, h3, h4] using ih (cnt + 1) h1
        · by_cases h5 : isDangerousUnicode c = true
          · simpa [cleanTextAux, h2, h3, h5] using ih 0 h1
          · simp only [cleanTextAux, h2, h3, h5, if_false]
            exact List.mem_cons_of_mem _ (ih 0 h1)

/-- C8 (amended): every string accepted by `ValidateUsername` contains no
space, and its *cleaned* form (the string the checks actually run on) has
3–50 code points drawn from ASCII letters, digits, underscore and hyphen;
the raw string itself may additionally contain characters `CleanText`
strips (see the counterexample). -/
theorem validateUsername_accepted_props (u : Uni) (s : List Char)
    (hsp : u.isCombining ' ' = false)
    (hacc : (ValidateUsername u s).1 = true) :
    ' ' ∉ s ∧ 3 ≤ (CleanText u s).length ∧ (CleanText u s).length ≤ 50 ∧
    (CleanText u s).all usernameCharOK = true := by
  simp only [ValidateUsername] at hacc
  split_ifs at hacc with h1 h2 h3 h4 h5
  all_goals try simp at hacc
  refine ⟨?_, by omega, by omega, ?_⟩
  · intro hs2
    exact h1 (space_mem_cleanTextAux u hsp s 0 hs2)
  · exact h5.2

theorem validateUsername_accepted_props_witness :
    ' ' ∉ ['a', 'b', 'c'] ∧ 3 ≤ (CleanText uniRef ['a', 'b', 'c']).length ∧
    (CleanText uniRef ['a', 'b', 'c']).length ≤ 50 ∧
    (CleanText uniRef ['a', 'b', 'c']).all usernameCharOK = true :=
  validateUsername_accepted_props uniRef ['a', 'b', 'c'] (by decide) (by decide)

/-- C8 counterexample: `"ab\u0001c"` is accepted — the control character
is stripped by `CleanText` before any check — yet the raw string is not
made of ASCII letters, digits, underscore and hyphen only, contradicting
the claim about the raw accepted string. -/
theorem username_charset_counterexample :
    ValidateUsername uniRef ['a', 'b', '\u0001', 'c'] = (true, "") ∧
    (['a', 'b', '\u0001', 'c'].all usernameCharOK) = false := by decide

end Forum
